import Mathlib

/-!
Shallow embedding of the foodgram backend core (recipes app):
the relational store (backend/recipes/models.py), the submission
validators and write paths (backend/api/serializers.py,
backend/api/validators.py) and the shopping-list aggregator
(backend/api/utils.py).

Users, tags and ingredients are identified by their integer primary
keys; Django model instances compare equal exactly when their primary
keys do, so ids stand for the objects wherever the code compares them.
-/

deriving instance DecidableEq for Except

namespace Foodgram

/-- A row of the Ingredient table (models.py): name and measurement
unit, addressed by primary key. -/
structure Ingredient where
  id : Nat
  name : String
  measurement_unit : String
  deriving DecidableEq, Repr

/-- The scalar columns of a Recipe row (models.py): author FK, name,
text, cooking_time, image reference.  Tags and ingredient lines live
in their own tables below, as in the schema. -/
structure Recipe where
  id : Nat
  author : Nat
  name : String
  text : String
  cooking_time : Nat
  image : String
  deriving DecidableEq, Repr

/-- A row of the IngredientRecipe through table (models.py):
ingredient FK, recipe FK, amount. -/
structure IngredientRecipe where
  ingredient : Nat
  recipe : Nat
  amount : Nat
  deriving DecidableEq, Repr

/-- The persistent store: one list per table.  recipeTags is the
Recipe.tag many-to-many table as (recipe id, tag id) pairs; favorites
and buyList are the (user, recipe) relation tables; subscriptions is
the (user, author) table from users/models.py. -/
structure Store where
  ingredients : List Ingredient
  recipes : List Recipe
  ingredientRecipes : List IngredientRecipe
  recipeTags : List (Nat × Nat)
  favorites : List (Nat × Nat)
  buyList : List (Nat × Nat)
  subscriptions : List (Nat × Nat)
  deriving DecidableEq, Repr

/-- The error kinds the serializers raise (serializers.py,
validators.py), plus the store-level integrity error and the 404. -/
inductive Err where
  | fieldOutOfRange : Err
  | keyError : Err
  | emptyTags : Err
  | emptyIngredients : Err
  | conflict : Err
  | duplicateInList : String → Nat → Err
  | integrityError : Err
  | alreadyAdded : Err
  | notFound : Err
  | subscriptionConflict : Err
  | selfReference : Err
  deriving DecidableEq, Repr

/-- Loop of validate_unique_for_list (validators.py): `temp` is the
set of elements already seen; the first element found in `temp` is
returned as the duplicate the raised error names. -/
def validate_unique_go (temp : List Nat) : List Nat → Option Nat
  | [] => none
  | elem :: rest =>
    if elem ∈ temp then some elem else validate_unique_go (elem :: temp) rest

/-- validate_unique_for_list (validators.py lines 4-10): scans `data`
once with a seen-set, raising on the first repeated element.  `some e`
stands for `ValidationError` naming `e`; `none` is silent success. -/
def validate_unique_for_list (data : List Nat) : Option Nat :=
  validate_unique_go [] data

/-- `Recipe.objects.filter(name=name, author=author, tag__in=tags).exists()`
(serializers.py lines 148-149): some stored recipe by `author` has the
same name and carries at least one of the submitted tags. -/
def conflictExists (st : Store) (author : Nat) (name : String)
    (tags : List Nat) : Bool :=
  st.recipes.any fun r =>
    r.name == name && r.author == author &&
      tags.any fun t => st.recipeTags.contains (r.id, t)

/-- An ingredient entry of a submission: resolved ingredient pk and
amount (RecipeIngredientSerializer fields id/amount). -/
structure IngredientLineSub where
  ingredient : Nat
  amount : Nat
  deriving DecidableEq, Repr

/-- The validated_data/attrs dict reaching RecipeSerializer.validate,
create and update.  A field absent from the dict is `none` (partial
update); a full create submission has every field present. -/
structure Attrs where
  name : Option String
  text : Option String
  cooking_time : Option Nat
  image : Option String
  tag : Option (List Nat)
  recipe_ingredients : Option (List IngredientLineSub)
  deriving DecidableEq, Repr

/-- RecipeSerializer.validate (serializers.py lines 131-156).
`attrs.get('tag')` never raises, so a missing tag list behaves as
empty under `if not tags`; `attrs['name']` and
`attrs['recipe_ingredients']` raise KeyError when missing.  The checks
run in source order: empty tags, empty ingredients, the create-only
name/tag conflict against the store (`method == 'POST'`), then
validate_unique_for_list on the tags and on the ingredient pks. -/
def RecipeSerializer.validate (st : Store) (author : Nat) (isPost : Bool)
    (attrs : Attrs) : Except Err Unit :=
  match attrs.name with
  | none => Except.error Err.keyError
  | some name =>
    match attrs.recipe_ingredients with
    | none => Except.error Err.keyError
    | some ingredients =>
      let tags := attrs.tag.getD []
      let ingredients_obj := ingredients.map (·.ingredient)
      if tags = [] then Except.error Err.emptyTags
      else if ingredients = [] then Except.error Err.emptyIngredients
      else if isPost && conflictExists st author name tags then
        Except.error Err.conflict
      else
        match validate_unique_for_list tags with
        | some e => Except.error (Err.duplicateInList "Теги" e)
        | none =>
          match validate_unique_for_list ingredients_obj with
          | some e => Except.error (Err.duplicateInList "Ингредиенты" e)
          | none => Except.ok ()

/-- Modelled from the spec: backend/recipes/constants.py is not among
the repository files; the bounds [1, 1000] for cooking_time and
[1, 3000] for amount are the spec's, and they match the validator
messages spelled out in models.py lines 86-92 and 137-143. -/
def MIN_COOKING_TIME : Nat := 1

/-- Modelled from the spec: see MIN_COOKING_TIME. -/
def MAX_COOKING_TIME : Nat := 1000

/-- Modelled from the spec: see MIN_COOKING_TIME. -/
def MIN_AMOUNT_INGREDIENT : Nat := 1

/-- Modelled from the spec: see MIN_COOKING_TIME. -/
def MAX_AMOUNT_INGREDIENT : Nat := 3000

/-- MinValueValidator/MaxValueValidator on Recipe.cooking_time
(models.py lines 86-92), inclusive bounds. -/
def cookingTimeValid (n : Nat) : Bool :=
  MIN_COOKING_TIME ≤ n && n ≤ MAX_COOKING_TIME

/-- MinValueValidator/MaxValueValidator on IngredientRecipe.amount
(models.py lines 137-143), inclusive bounds. -/
def amountValid (n : Nat) : Bool :=
  MIN_AMOUNT_INGREDIENT ≤ n && n ≤ MAX_AMOUNT_INGREDIENT

/-- The serializer's field-level validation pass, which DRF runs on
the provided fields before RecipeSerializer.validate: the model
validators on cooking_time and on every submitted line's amount. -/
def runFieldValidators (attrs : Attrs) : Except Err Unit :=
  if (match attrs.cooking_time with
      | none => true
      | some n => cookingTimeValid n) &&
     (attrs.recipe_ingredients.getD []).all (fun l => amountValid l.amount)
  then Except.ok () else Except.error Err.fieldOutOfRange

/-- A fresh primary key for a Recipe row: one past the largest id in
the table, as an autoincrement column hands out. -/
def freshId (st : Store) : Nat :=
  st.recipes.foldl (fun a r => max a r.id) 0 + 1

/-- `IngredientRecipe.objects.bulk_create` (serializers.py line 105)
under the `unique_recipe_ingredient` constraint (models.py lines
149-154): each row is appended unless the table already holds a row
with the same (recipe, ingredient), which raises IntegrityError. -/
def bulk_create_lines (rows : List IngredientRecipe) :
    List IngredientRecipe → Except Err (List IngredientRecipe)
  | [] => Except.ok rows
  | row :: rest =>
    if rows.any fun r => r.recipe == row.recipe &&
        r.ingredient == row.ingredient
    then Except.error Err.integrityError
    else bulk_create_lines (rows ++ [row]) rest

/-- RecipeSerializer.create (serializers.py lines 107-114) inside its
transaction.atomic: after field validation and validate, insert the
Recipe row, bulk-create its lines, attach the tag set.  A raise at any
point yields `Except.error` and, the transaction rolling back, no
store at all. -/
def createRecipe (st : Store) (author : Nat) (attrs : Attrs) :
    Except Err Store := do
  runFieldValidators attrs
  RecipeSerializer.validate st author true attrs
  let rows ← bulk_create_lines st.ingredientRecipes
    ((attrs.recipe_ingredients.getD []).map
      fun l => ⟨l.ingredient, freshId st, l.amount⟩)
  Except.ok
    { st with
      recipes := st.recipes ++
        [⟨freshId st, author, attrs.name.getD "", attrs.text.getD "",
          attrs.cooking_time.getD 0, attrs.image.getD ""⟩]
      ingredientRecipes := rows
      recipeTags := st.recipeTags ++
        (attrs.tag.getD []).map fun t => (freshId st, t) }

/-- The scalar-field part of RecipeSerializer.update (serializers.py
lines 120-124): each scalar is read with the instance's current value
as default, so an absent field keeps the prior value. -/
def applyScalars (attrs : Attrs) (r : Recipe) : Recipe :=
  { r with
    name := attrs.name.getD r.name
    text := attrs.text.getD r.text
    cooking_time := attrs.cooking_time.getD r.cooking_time
    image := attrs.image.getD r.image }

/-- The write part of RecipeSerializer.update (serializers.py lines
116-129): save the scalar fields, replace the tag set wholesale
(`instance.tag.set(tags)`, default `[]`), delete every prior
ingredient line of this recipe and bulk-insert the submitted ones. -/
def RecipeSerializer.update (st : Store) (rid : Nat) (attrs : Attrs) :
    Store :=
  { st with
    recipes := st.recipes.map fun r =>
      if r.id = rid then applyScalars attrs r else r
    recipeTags := (st.recipeTags.filter fun p => p.1 ≠ rid) ++
      (attrs.tag.getD []).map fun t => (rid, t)
    ingredientRecipes :=
      (st.ingredientRecipes.filter fun l => l.recipe ≠ rid) ++
      (attrs.recipe_ingredients.getD []).map
        fun l => ⟨l.ingredient, rid, l.amount⟩ }

/-- The full update path: field validation, RecipeSerializer.validate
with `method ≠ 'POST'`, then the atomic write. -/
def updateRecipe (st : Store) (author : Nat) (rid : Nat) (attrs : Attrs) :
    Except Err Store := do
  runFieldValidators attrs
  RecipeSerializer.validate st author false attrs
  Except.ok (RecipeSerializer.update st rid attrs)

/-- What the request handler leaves in the database: the new store on
success; on a raise, transaction.atomic has rolled back and the prior
store stands. -/
def runOp (st : Store) (act : Except Err Store) : Store :=
  match act with
  | Except.ok st' => st'
  | Except.error _ => st

/-- BaseAddRecipeSerializer.validate + create (serializers.py lines
183-198) over one (user, recipe) relation table: raise if the pair
already exists, 404 if the recipe id resolves to no Recipe row, else
insert the pair. -/
def BaseAddRecipeSerializer.addRelation (rel : List (Nat × Nat))
    (recipes : List Recipe) (user recipeId : Nat) :
    Except Err (List (Nat × Nat)) :=
  if rel.contains (user, recipeId) then Except.error Err.alreadyAdded
  else if recipes.any fun r => r.id == recipeId then
    Except.ok (rel ++ [(user, recipeId)])
  else Except.error Err.notFound

/-- FavoriteSerializer (serializers.py lines 204-207): the base
serializer bound to the Favorite table. -/
def addFavorite (st : Store) (user recipeId : Nat) : Except Err Store :=
  (BaseAddRecipeSerializer.addRelation st.favorites st.recipes user
    recipeId).map fun rel => { st with favorites := rel }

/-- BuyListSerializer (serializers.py lines 210-213): the base
serializer bound to the BuyList (cart) table. -/
def addToBuyList (st : Store) (user recipeId : Nat) : Except Err Store :=
  (BaseAddRecipeSerializer.addRelation st.buyList st.recipes user
    recipeId).map fun rel => { st with buyList := rel }

/-- SubscriptionSerializer.validate (serializers.py lines 265-277):
first the store check for an existing (user, author) Subscription row,
then the user == author self-subscription check, in that source
order. -/
def SubscriptionSerializer.validate (st : Store) (user author : Nat) :
    Except Err Unit :=
  if st.subscriptions.contains (user, author) then
    Except.error Err.subscriptionConflict
  else if user = author then Except.error Err.selfReference
  else Except.ok ()

/-- SubscriptionSerializer.validate followed by create (serializers.py
lines 279-283): on success the (user, author) row is inserted. -/
def subscribe (st : Store) (user author : Nat) : Except Err Store := do
  SubscriptionSerializer.validate st user author
  Except.ok { st with subscriptions := st.subscriptions ++ [(user, author)] }

/-- The joined rows feeding the aggregation in
get_ingredients_for_download (utils.py lines 7-11):
`IngredientRecipe.objects.filter(recipe__buylist__user=user)` joins
each line through its Recipe row to a BuyList row of `user`, and
`.values('ingredient__name', 'ingredient__measurement_unit')` joins
the Ingredient row; each surviving row is (name, unit, amount). -/
def cartLines (st : Store) (user : Nat) : List (String × String × Nat) :=
  (st.ingredientRecipes.filter fun ir =>
      st.recipes.any fun r =>
        r.id == ir.recipe && st.buyList.contains (user, r.id)).filterMap
    fun ir =>
      (st.ingredients.find? fun ing => ing.id == ir.ingredient).map
        fun ing => (ing.name, ing.measurement_unit, ir.amount)

/-- The distinct (name, unit) group keys of the SQL GROUP BY, in order
of first appearance; `seen` holds the keys already emitted. -/
def groupKeys (seen : List (String × String)) :
    List (String × String × Nat) → List (String × String)
  | [] => []
  | (n, u, _) :: rest =>
    if (n, u) ∈ seen then groupKeys seen rest
    else (n, u) :: groupKeys ((n, u) :: seen) rest

/-- `Sum('amount')` within one (name, unit) group. -/
def groupSum (rows : List (String × String × Nat))
    (k : String × String) : Nat :=
  (rows.filter fun r => (r.1, r.2.1) == k).foldl
    (fun acc r => acc + r.2.2) 0

/-- One line of the report body (utils.py lines 14-16):
`f'{name} ({unit}) — {amount}'` with the em-dash. -/
def renderLine (name unit : String) (total : Nat) : String :=
  name ++ " (" ++ unit ++ ") — " ++ toString total

/-- get_ingredients_for_download (utils.py lines 6-19): aggregate the
user's cart lines by (ingredient name, measurement unit) with summed
amounts, put the fixed header first, join with newlines. -/
def get_ingredients_for_download (st : Store) (user : Nat) : String :=
  let rows := cartLines st user
  let ingredient_list := "Список покупок:" ::
    (groupKeys [] rows).map fun k => renderLine k.1 k.2 (groupSum rows k)
  String.intercalate "\n" ingredient_list

/-- The spec's shopping-list scenario: user 0's cart holds recipes 1
and 2, each with a Salt/g line (amounts 10 and 5). -/
def saltStore : Store :=
  { ingredients := [⟨1, "Salt", "g"⟩]
    recipes := [⟨1, 7, "r1", "d", 5, "img"⟩, ⟨2, 7, "r2", "d", 5, "img"⟩]
    ingredientRecipes := [⟨1, 1, 10⟩, ⟨1, 2, 5⟩]
    recipeTags := [(1, 1), (2, 1)]
    favorites := []
    buyList := [(0, 1), (0, 2)]
    subscriptions := [] }

/-- A store with no rows at all; in particular every cart is empty. -/
def noCartStore : Store := ⟨[], [], [], [], [], [], []⟩

/-- A store whose only cart entry belongs to user 1, so user 0's cart
is empty. -/
def otherUserCartStore : Store := ⟨[], [], [], [], [], [(1, 5)], []⟩

/-- A store in which author 7 already has a recipe named "x" carrying
tag 3. -/
def conflictStore : Store :=
  { ingredients := [⟨1, "Salt", "g"⟩]
    recipes := [⟨1, 7, "x", "d", 5, "img"⟩]
    ingredientRecipes := [⟨1, 1, 10⟩]
    recipeTags := [(1, 3)]
    favorites := []
    buyList := []
    subscriptions := [] }

/-- A submission by author 7 that collides with conflictStore's
recipe "x" on name and tag 3 but has an empty ingredient list. -/
def conflictEmptyIngredientsAttrs : Attrs :=
  ⟨some "x", some "d", some 5, some "img", some [3], some []⟩

/-- The same colliding submission with one valid ingredient line. -/
def conflictAttrs : Attrs :=
  ⟨some "x", some "d", some 5, some "img", some [3], some [⟨1, 5⟩]⟩

/-- A store already holding the self-subscription row (0, 0). -/
def selfSubStore : Store := ⟨[], [], [], [], [], [], [(0, 0)]⟩

/-- A store holding only the subscription (1, 2). -/
def oneSubStore : Store := ⟨[], [], [], [], [], [], [(1, 2)]⟩

/-- The boundary-test submission: one tag, one ingredient line, the
given cooking_time and amount. -/
def boundaryAttrs (ct amt : Nat) : Attrs :=
  ⟨some "n", some "d", some ct, some "img", some [1], some [⟨1, amt⟩]⟩

/-- A create submission repeating ingredient id 4. -/
def dupIngredientAttrs : Attrs :=
  ⟨some "n", some "d", some 5, some "img", some [1], some [⟨4, 5⟩, ⟨4, 6⟩]⟩

/-- A store holding the single recipe row with id 1 (author 7). -/
def oneRecipeStore : Store :=
  { ingredients := [⟨1, "Salt", "g"⟩]
    recipes := [⟨1, 7, "r1", "d", 5, "img"⟩]
    ingredientRecipes := [⟨1, 1, 10⟩]
    recipeTags := [(1, 1)]
    favorites := []
    buyList := []
    subscriptions := [] }

/-- An update submission carrying a new text but no name, no
cooking_time and no image. -/
def partialUpdateAttrs : Attrs :=
  ⟨none, some "new text", none, none, some [1], some [⟨1, 5⟩]⟩

/-- The spec's recipe invariant 1: every stored Recipe row has at
least one tag pair and at least one ingredient line. -/
def recipeInv (st : Store) : Prop :=
  ∀ r ∈ st.recipes, (∃ p ∈ st.recipeTags, p.1 = r.id) ∧
    ∃ l ∈ st.ingredientRecipes, l.recipe = r.id

/-- The store produced by creating the boundary submission with
cooking_time 5 and amount 5 in an empty store. -/
def createdStore : Store :=
  { ingredients := []
    recipes := [⟨1, 7, "n", "d", 5, "img"⟩]
    ingredientRecipes := [⟨1, 1, 5⟩]
    recipeTags := [(1, 1)]
    favorites := []
    buyList := []
    subscriptions := [] }

end Foodgram

namespace Foodgram

/-- `validate_unique_go temp l` succeeds exactly when `l` has no
repeat and no element of `l` was already seen in `temp`. -/
theorem validate_unique_go_eq_none (temp : List Nat) (l : List Nat) :
    validate_unique_go temp l = none ↔ l.Nodup ∧ ∀ x ∈ l, x ∉ temp := by
  induction l generalizing temp with
  | nil => simp [validate_unique_go]
  | cons a rest ih =>
    by_cases ha : a ∈ temp
    · rw [validate_unique_go, if_pos ha]
      constructor
      · intro h
        exact absurd h (by simp)
      · rintro ⟨-, hfresh⟩
        exact absurd ha (hfresh a (by simp))
    · rw [validate_unique_go, if_neg ha, ih]
      constructor
      · rintro ⟨hnd, hfresh⟩
        refine ⟨List.nodup_cons.mpr ⟨fun hmem => hfresh a hmem (by simp), hnd⟩,
          ?_⟩
        intro x hx
        rcases List.mem_cons.mp hx with rfl | hx
        · exact ha
        · intro hxt
          exact hfresh x hx (List.mem_cons.mpr (Or.inr hxt))
      · rintro ⟨hnd, hfresh⟩
        refine ⟨(List.nodup_cons.mp hnd).2, ?_⟩
        intro x hx hxat
        rcases List.mem_cons.mp hxat with rfl | hxt
        · exact (List.nodup_cons.mp hnd).1 hx
        · exact hfresh x (List.mem_cons.mpr (Or.inr hx)) hxt

/-- `validate_unique_go temp l = some e` exactly when `e` heads the
first repeat: `l` splits as `l₁ ++ e :: l₂` where every element of
`l₁` is fresh (not in `temp`, no repeat inside `l₁`) and `e` itself
was already seen (in `temp` or in `l₁`). -/
theorem validate_unique_go_eq_some (temp : List Nat) (l : List Nat) (e : Nat) :
    validate_unique_go temp l = some e ↔
      ∃ l₁ l₂, l = l₁ ++ e :: l₂ ∧ (e ∈ temp ∨ e ∈ l₁) ∧ l₁.Nodup ∧
        ∀ x ∈ l₁, x ∉ temp := by
  induction l generalizing temp with
  | nil =>
    simp only [validate_unique_go]
    constructor
    · intro h; cases h
    · rintro ⟨l₁, l₂, h, -⟩
      exact absurd h (by simp)
  | cons a rest ih =>
    by_cases ha : a ∈ temp
    · rw [validate_unique_go, if_pos ha]
      constructor
      · rintro h
        injection h with h
        subst h
        exact ⟨[], rest, by simp, Or.inl ha, by simp, by simp⟩
      · rintro ⟨l₁, l₂, hsplit, hseen, hnd, hfresh⟩
        cases l₁ with
        | nil =>
          simp only [List.nil_append, List.cons.injEq] at hsplit
          simp [hsplit.1]
        | cons b l₁ =>
          simp only [List.cons_append, List.cons.injEq] at hsplit
          exact absurd ha (hsplit.1 ▸ hfresh b (by simp))
    · rw [validate_unique_go, if_neg ha, ih]
      constructor
      · rintro ⟨l₁, l₂, hsplit, hseen, hnd, hfresh⟩
        refine ⟨a :: l₁, l₂, by simp [hsplit], ?_, ?_, ?_⟩
        · rcases hseen with hseen | hseen
          · rcases List.mem_cons.mp hseen with rfl | h
            · exact Or.inr (by simp)
            · exact Or.inl h
          · exact Or.inr (by simp [hseen])
        · refine List.nodup_cons.mpr ⟨fun hmem => ?_, hnd⟩
          exact (hfresh a hmem) (by simp)
        · rintro x hx
          rcases List.mem_cons.mp hx with rfl | hx
          · exact ha
          · intro hxt
            exact (hfresh x hx) (by simp [hxt])
      · rintro ⟨l₁, l₂, hsplit, hseen, hnd, hfresh⟩
        cases l₁ with
        | nil =>
          simp only [List.nil_append, List.cons.injEq] at hsplit
          rcases hseen with hseen | hseen
          · exact absurd (hsplit.1 ▸ hseen) ha
          · exact absurd hseen (by simp)
        | cons b l₁ =>
          simp only [List.cons_append, List.cons.injEq] at hsplit
          obtain ⟨rfl, hsplit⟩ := hsplit
          refine ⟨l₁, l₂, hsplit, ?_, (List.nodup_cons.mp hnd).2, ?_⟩
          · rcases hseen with hseen | hseen
            · exact Or.inl (by simp [hseen])
            · rcases List.mem_cons.mp hseen with rfl | h
              · exact Or.inl (by simp)
              · exact Or.inr h
          · rintro x hx
            simp only [List.mem_cons, not_or]
            refine ⟨fun hxa => ?_, hfresh x (by simp [hx])⟩
            exact (List.nodup_cons.mp hnd).1 (hxa ▸ hx)

/-- The scan succeeds exactly on duplicate-free input. -/
theorem validate_unique_for_list_eq_none (l : List Nat) :
    validate_unique_for_list l = none ↔ l.Nodup := by
  rw [validate_unique_for_list, validate_unique_go_eq_none]
  simp

/-- The scan reports `e` exactly when `e` is the first repeated
element: the input splits as `l₁ ++ e :: l₂` with `e` already in the
duplicate-free prefix `l₁`. -/
theorem validate_unique_for_list_eq_some (l : List Nat) (e : Nat) :
    validate_unique_for_list l = some e ↔
      ∃ l₁ l₂, l = l₁ ++ e :: l₂ ∧ e ∈ l₁ ∧ l₁.Nodup := by
  rw [validate_unique_for_list, validate_unique_go_eq_some]
  constructor
  · rintro ⟨l₁, l₂, hsplit, hseen, hnd, -⟩
    refine ⟨l₁, l₂, hsplit, ?_, hnd⟩
    rcases hseen with hseen | hseen
    · exact absurd hseen (by simp)
    · exact hseen
  · rintro ⟨l₁, l₂, hsplit, hin, hnd⟩
    exact ⟨l₁, l₂, hsplit, Or.inr hin, hnd, by simp⟩

/-- A successful bulk insert appends every new row in order. -/
theorem bulk_create_lines_ok (newRows : List IngredientRecipe) :
    ∀ rows out, bulk_create_lines rows newRows = Except.ok out →
      out = rows ++ newRows := by
  induction newRows with
  | nil =>
    intro rows out h
    injection h with h
    simp [h.symm]
  | cons row rest ih =>
    intro rows out h
    rw [bulk_create_lines] at h
    by_cases hc : (rows.any fun r => r.recipe == row.recipe &&
        r.ingredient == row.ingredient) = true
    · rw [if_pos hc] at h
      exact Except.noConfusion h
    · rw [if_neg hc] at h
      have := ih (rows ++ [row]) out h
      simp [this]

/-- What a successful RecipeSerializer.validate certifies about the
submission: every required key present, non-empty tag and ingredient
lists, both duplicate-free, and on create no name/tag conflict. -/
theorem validate_ok_shape (st : Store) (author : Nat) (isPost : Bool)
    (attrs : Attrs)
    (h : RecipeSerializer.validate st author isPost attrs = Except.ok ()) :
    ∃ name ingredients, attrs.name = some name ∧
      attrs.recipe_ingredients = some ingredients ∧
      attrs.tag.getD [] ≠ [] ∧ ingredients ≠ [] ∧
      (attrs.tag.getD []).Nodup ∧
      (ingredients.map (·.ingredient)).Nodup ∧
      (isPost = true →
        conflictExists st author name (attrs.tag.getD []) = false) := by
  unfold RecipeSerializer.validate at h
  cases hn : attrs.name with
  | none => rw [hn] at h; exact Except.noConfusion h
  | some name =>
    rw [hn] at h
    cases hi : attrs.recipe_ingredients with
    | none => rw [hi] at h; exact Except.noConfusion h
    | some ingredients =>
      rw [hi] at h
      simp only at h
      refine ⟨name, ingredients, rfl, rfl, ?_⟩
      by_cases ht : attrs.tag.getD [] = []
      · rw [if_pos ht] at h
        exact Except.noConfusion h
      rw [if_neg ht] at h
      by_cases hie : ingredients = []
      · rw [if_pos hie] at h
        exact Except.noConfusion h
      rw [if_neg hie] at h
      by_cases hc : (isPost && conflictExists st author name
          (attrs.tag.getD [])) = true
      · rw [if_pos hc] at h
        exact Except.noConfusion h
      rw [if_neg hc] at h
      refine ⟨ht, hie, ?_⟩
      cases hvt : validate_unique_for_list (attrs.tag.getD []) with
      | some e => rw [hvt] at h; exact Except.noConfusion h
      | none =>
        rw [hvt] at h
        cases hvi : validate_unique_for_list
            (ingredients.map (·.ingredient)) with
        | some e => rw [hvi] at h; exact Except.noConfusion h
        | none =>
          refine ⟨(validate_unique_for_list_eq_none _).mp hvt,
            (validate_unique_for_list_eq_none _).mp hvi, ?_⟩
          intro hpost
          subst hpost
          simpa using hc

/-- A successful create passed field validation and validate, and its
result is the prior store plus the new Recipe row, its ingredient
lines and its tag pairs. -/
theorem createRecipe_ok_elim (st : Store) (author : Nat) (attrs : Attrs)
    (st' : Store) (h : createRecipe st author attrs = Except.ok st') :
    runFieldValidators attrs = Except.ok () ∧
    RecipeSerializer.validate st author true attrs = Except.ok () ∧
    st' = { st with
      recipes := st.recipes ++
        [⟨freshId st, author, attrs.name.getD "", attrs.text.getD "",
          attrs.cooking_time.getD 0, attrs.image.getD ""⟩]
      ingredientRecipes := st.ingredientRecipes ++
        (attrs.recipe_ingredients.getD []).map
          fun l => ⟨l.ingredient, freshId st, l.amount⟩
      recipeTags := st.recipeTags ++
        (attrs.tag.getD []).map fun t => (freshId st, t) } := by
  unfold createRecipe at h
  cases hf : runFieldValidators attrs with
  | error e => rw [hf] at h; exact Except.noConfusion h
  | ok u =>
    cases u
    rw [hf] at h
    cases hv : RecipeSerializer.validate st author true attrs with
    | error e => rw [hv] at h; exact Except.noConfusion h
    | ok v =>
      cases v
      rw [hv] at h
      cases hb : bulk_create_lines st.ingredientRecipes
          ((attrs.recipe_ingredients.getD []).map
            fun l => ⟨l.ingredient, freshId st, l.amount⟩) with
      | error e => rw [hb] at h; exact Except.noConfusion h
      | ok rows =>
        rw [hb] at h
        injection h with h
        refine ⟨rfl, rfl, ?_⟩
        rw [← h, bulk_create_lines_ok _ _ _ hb]

/-- A successful update passed field validation and validate, and its
result is exactly the RecipeSerializer.update rewrite. -/
theorem updateRecipe_ok_elim (st : Store) (author rid : Nat) (attrs : Attrs)
    (st' : Store) (h : updateRecipe st author rid attrs = Except.ok st') :
    runFieldValidators attrs = Except.ok () ∧
    RecipeSerializer.validate st author false attrs = Except.ok () ∧
    st' = RecipeSerializer.update st rid attrs := by
  unfold updateRecipe at h
  cases hf : runFieldValidators attrs with
  | error e => rw [hf] at h; exact Except.noConfusion h
  | ok u =>
    cases u
    rw [hf] at h
    cases hv : RecipeSerializer.validate st author false attrs with
    | error e => rw [hv] at h; exact Except.noConfusion h
    | ok v =>
      cases v
      rw [hv] at h
      injection h with h
      exact ⟨rfl, rfl, h.symm⟩

/-- RecipeSerializer.validate raises the name/tag conflict exactly
when the required keys are present, both non-emptiness checks pass,
the request is a create, and the store holds a conflicting recipe. -/
theorem validate_eq_conflict (st : Store) (author : Nat) (isPost : Bool)
    (attrs : Attrs) :
    RecipeSerializer.validate st author isPost attrs =
        Except.error Err.conflict ↔
      ∃ name ingredients, attrs.name = some name ∧
        attrs.recipe_ingredients = some ingredients ∧
        attrs.tag.getD [] ≠ [] ∧ ingredients ≠ [] ∧
        (isPost && conflictExists st author name (attrs.tag.getD []))
          = true := by
  unfold RecipeSerializer.validate
  cases hn : attrs.name with
  | none => simp
  | some name =>
    cases hi : attrs.recipe_ingredients with
    | none => simp
    | some ingredients =>
      simp only
      by_cases ht : attrs.tag.getD [] = []
      · rw [if_pos ht]
        simp [ht]
      rw [if_neg ht]
      by_cases hie : ingredients = []
      · rw [if_pos hie]
        simp [hie]
      rw [if_neg hie]
      by_cases hc : (isPost && conflictExists st author name
          (attrs.tag.getD [])) = true
      · rw [if_pos hc]
        simp only [true_iff]
        exact ⟨name, ingredients, rfl, rfl, ht, hie, hc⟩
      · rw [if_neg hc]
        constructor
        · intro hcontra
          cases hvt : validate_unique_for_list (attrs.tag.getD []) with
          | some e =>
            rw [hvt] at hcontra
            injection hcontra with hcontra
            exact Err.noConfusion hcontra
          | none =>
            rw [hvt] at hcontra
            cases hvi : validate_unique_for_list
                (ingredients.map (·.ingredient)) with
            | some e =>
              rw [hvi] at hcontra
              injection hcontra with hcontra
              exact Err.noConfusion hcontra
            | none =>
              rw [hvi] at hcontra
              exact Except.noConfusion hcontra
        · rintro ⟨name', ingredients', hn', hi', -, -, hc'⟩
          injection hn' with hn'
          subst hn'
          exact absurd hc' hc

/-- A key is emitted exactly when some row carries it and it was not
already seen. -/
theorem groupKeys_mem (rows : List (String × String × Nat)) :
    ∀ seen k, k ∈ groupKeys seen rows ↔
      k ∈ rows.map (fun r => (r.1, r.2.1)) ∧ k ∉ seen := by
  induction rows with
  | nil => intro seen k; simp [groupKeys]
  | cons row rest ih =>
    intro seen k
    obtain ⟨n, u, a⟩ := row
    by_cases hs : (n, u) ∈ seen
    · rw [groupKeys, if_pos hs, ih]
      simp only [List.map_cons, List.mem_cons]
      constructor
      · rintro ⟨hmem, hk⟩
        exact ⟨Or.inr hmem, hk⟩
      · rintro ⟨hmem | hmem, hk⟩
        · exact absurd (hmem ▸ hs) hk
        · exact ⟨hmem, hk⟩
    · rw [groupKeys, if_neg hs]
      simp only [List.map_cons, List.mem_cons, ih]
      constructor
      · rintro (rfl | ⟨hmem, hk⟩)
        · exact ⟨Or.inl rfl, hs⟩
        · exact ⟨Or.inr hmem, fun hx => hk (Or.inr hx)⟩
      · rintro ⟨hmem | hmem, hk⟩
        · exact Or.inl hmem
        · by_cases hkey : k = (n, u)
          · exact Or.inl hkey
          · exact Or.inr ⟨hmem, fun hx => by
              rcases hx with h | h
              · exact hkey h
              · exact hk h⟩

/-- The emitted keys are pairwise distinct: one report line per
(name, unit) group. -/
theorem groupKeys_nodup (rows : List (String × String × Nat)) :
    ∀ seen, (groupKeys seen rows).Nodup := by
  induction rows with
  | nil => intro seen; simp [groupKeys]
  | cons row rest ih =>
    intro seen
    obtain ⟨n, u, a⟩ := row
    by_cases hs : (n, u) ∈ seen
    · rw [groupKeys, if_pos hs]
      exact ih seen
    · rw [groupKeys, if_neg hs]
      refine List.nodup_cons.mpr ⟨fun hmem => ?_, ih _⟩
      exact ((groupKeys_mem rest _ _).mp hmem).2 (by simp)

/-- The folded group total is the sum of the group's amounts. -/
theorem groupSum_eq_sum (rows : List (String × String × Nat))
    (k : String × String) :
    groupSum rows k =
      ((rows.filter fun r => (r.1, r.2.1) == k).map fun r => r.2.2).sum := by
  rw [groupSum, List.sum_eq_foldl, List.foldl_map]

/-- C1, counterexample: with cart recipes holding Salt/g amounts 10
and 5, get_ingredients_for_download does not return
"Shopping list:\nSalt (g) — 15" — the header the code writes is
"Список покупок:". -/
theorem shopping_list_salt_header_counterexample :
    get_ingredients_for_download saltStore 0 ≠
      "Shopping list:\nSalt (g) — 15" := by
  decide

/-- C1 (amended: the header line the code emits is "Список покупок:",
not "Shopping list:"): the output is the header followed by one line
per distinct (name, unit) group of the cart's ingredient lines, each
line "<name> (<unit>) — <summed amount>" with the amounts of the
group summed; the keys are pairwise distinct and are exactly the keys
occurring in the cart; on the Salt 10 + Salt 5 cart the output is
"Список покупок:\nSalt (g) — 15". -/
theorem shopping_list_grouped_render :
    (∀ st user,
      get_ingredients_for_download st user =
        String.intercalate "\n" ("Список покупок:" ::
          (groupKeys [] (cartLines st user)).map fun k =>
            k.1 ++ " (" ++ k.2 ++ ") — " ++ toString
              (((cartLines st user).filter
                  fun r => (r.1, r.2.1) == k).map fun r => r.2.2).sum)) ∧
    (∀ st user, (groupKeys [] (cartLines st user)).Nodup) ∧
    (∀ st user k, k ∈ groupKeys [] (cartLines st user) ↔
      k ∈ (cartLines st user).map fun r => (r.1, r.2.1)) ∧
    get_ingredients_for_download saltStore 0 =
      "Список покупок:\nSalt (g) — 15" := by
  refine ⟨?_, ?_, ?_, by decide⟩
  · intro st user
    unfold get_ingredients_for_download
    simp only [renderLine, groupSum_eq_sum]
  · intro st user
    exact groupKeys_nodup _ _
  · intro st user k
    rw [groupKeys_mem]
    simp

/-- C1, witness: the rendering equation instantiated on the Salt
store. -/
theorem shopping_list_grouped_render_witness :
    get_ingredients_for_download saltStore 0 =
      String.intercalate "\n" ("Список покупок:" ::
        (groupKeys [] (cartLines saltStore 0)).map fun k =>
          k.1 ++ " (" ++ k.2 ++ ") — " ++ toString
            (((cartLines saltStore 0).filter
                fun r => (r.1, r.2.1) == k).map fun r => r.2.2).sum) :=
  shopping_list_grouped_render.1 saltStore 0

/-- C9, counterexample: for a user with an empty cart the code
returns "Список покупок:", not "Shopping list:". -/
theorem shopping_list_empty_cart_counterexample :
    get_ingredients_for_download noCartStore 0 ≠ "Shopping list:" := by
  decide

/-- C9 (amended: the header line the code emits is "Список покупок:",
not "Shopping list:"): for every user whose cart is empty the output
is exactly the header line, with no further lines and no trailing
newline. -/
theorem shopping_list_empty_cart_header :
    ∀ st user, (∀ p ∈ st.buyList, p.1 ≠ user) →
      get_ingredients_for_download st user = "Список покупок:" := by
  intro st user h
  have hrows : cartLines st user = [] := by
    unfold cartLines
    have hfilter : (st.ingredientRecipes.filter fun ir =>
        st.recipes.any fun r =>
          r.id == ir.recipe && st.buyList.contains (user, r.id)) = [] := by
      apply List.filter_eq_nil_iff.mpr
      intro ir hir
      simp only [List.any_eq_true, Bool.and_eq_true, not_exists, not_and]
      intro r hr hid hcont
      have hmem : (user, r.id) ∈ st.buyList := by simpa using hcont
      exact h (user, r.id) hmem rfl
    rw [hfilter]
    rfl
  unfold get_ingredients_for_download
  rw [hrows]
  rfl

/-- C9, witness: a store whose only cart entry belongs to user 1, so
the report for user 0 is the header alone. -/
theorem shopping_list_empty_cart_header_witness :
    get_ingredients_for_download otherUserCartStore 0 = "Список покупок:" :=
  shopping_list_empty_cart_header otherUserCartStore 0 (by decide)

/-- C3: validate_unique_for_list succeeds exactly on duplicate-free
input, and otherwise fails fast on the first repeated element: it
reports `e` exactly when the input splits as `l₁ ++ e :: l₂` with the
prefix `l₁` duplicate-free and already containing `e`.  The function
is pure, so no state is mutated either way. -/
theorem validate_unique_scan_spec :
    (∀ l : List Nat, validate_unique_for_list l = none ↔ l.Nodup) ∧
    ∀ (l : List Nat) (e : Nat), validate_unique_for_list l = some e ↔
      ∃ l₁ l₂, l = l₁ ++ e :: l₂ ∧ e ∈ l₁ ∧ l₁.Nodup :=
  ⟨validate_unique_for_list_eq_none, validate_unique_for_list_eq_some⟩

/-- C3, witness: the scan accepts [1, 2, 3] and reports 2 as the
first repeated element of [1, 2, 2, 3]. -/
theorem validate_unique_scan_spec_witness :
    validate_unique_for_list [1, 2, 2, 3] = some 2 ∧
      validate_unique_for_list [1, 2, 3] = none :=
  ⟨(validate_unique_scan_spec.2 [1, 2, 2, 3] 2).mpr
      ⟨[1, 2], [3], by decide, by decide, by decide⟩,
    (validate_unique_scan_spec.1 [1, 2, 3]).mpr (by decide)⟩

/-- C10: RecipeSerializer.update rewrites exactly the target recipe's
row through applyScalars, and applyScalars keeps every scalar whose
key is absent from the validated submission at the instance's prior
value while installing every submitted one. -/
theorem update_scalar_frame :
    ∀ st rid attrs,
      (RecipeSerializer.update st rid attrs).recipes =
        (st.recipes.map fun r =>
          if r.id = rid then applyScalars attrs r else r) ∧
      ∀ r : Recipe,
        (attrs.name = none → (applyScalars attrs r).name = r.name) ∧
        (attrs.text = none → (applyScalars attrs r).text = r.text) ∧
        (attrs.cooking_time = none →
          (applyScalars attrs r).cooking_time = r.cooking_time) ∧
        (attrs.image = none → (applyScalars attrs r).image = r.image) ∧
        (∀ v, attrs.name = some v → (applyScalars attrs r).name = v) ∧
        (∀ v, attrs.text = some v → (applyScalars attrs r).text = v) ∧
        (∀ v, attrs.cooking_time = some v →
          (applyScalars attrs r).cooking_time = v) ∧
        (∀ v, attrs.image = some v → (applyScalars attrs r).image = v) := by
  intro st rid attrs
  refine ⟨rfl, fun r => ⟨?_, ?_, ?_, ?_, ?_, ?_, ?_, ?_⟩⟩
  · intro h; simp [applyScalars, h]
  · intro h; simp [applyScalars, h]
  · intro h; simp [applyScalars, h]
  · intro h; simp [applyScalars, h]
  · intro v h; simp [applyScalars, h]
  · intro v h; simp [applyScalars, h]
  · intro v h; simp [applyScalars, h]
  · intro v h; simp [applyScalars, h]

/-- C10, witness: an update carrying only a new text leaves the name
untouched and installs the text. -/
theorem update_scalar_frame_witness :
    (applyScalars partialUpdateAttrs ⟨1, 7, "old", "d", 5, "img"⟩).name =
        "old" ∧
      (applyScalars partialUpdateAttrs ⟨1, 7, "old", "d", 5, "img"⟩).text =
        "new text" :=
  ⟨((update_scalar_frame oneRecipeStore 1 partialUpdateAttrs).2
      ⟨1, 7, "old", "d", 5, "img"⟩).1 rfl,
    (((update_scalar_frame oneRecipeStore 1 partialUpdateAttrs).2
      ⟨1, 7, "old", "d", 5, "img"⟩).2.2.2.2.2.1) "new text" rfl⟩

/-- C5, counterexample: on a store already holding the subscription
row (0, 0), subscribing user 0 to author 0 raises the
existing-subscription conflict, not the self-reference error — the
code checks the store before the user == author comparison, so the
claimed check order is the reverse of the code's. -/
theorem subscription_self_counterexample :
    subscribe selfSubStore 0 0 = Except.error Err.subscriptionConflict ∧
      Err.subscriptionConflict ≠ Err.selfReference := by
  decide

/-- C5 (amended: the code checks the existing-subscription conflict
first and user == author second): an existing (user, author) row
yields the conflict error; otherwise subscribing to oneself fails
with the self-reference error and no Subscription row is created;
otherwise the row is appended. -/
theorem subscription_checks_order :
    (∀ st user author, (user, author) ∈ st.subscriptions →
      subscribe st user author = Except.error Err.subscriptionConflict) ∧
    (∀ st user, (user, user) ∉ st.subscriptions →
      subscribe st user user = Except.error Err.selfReference ∧
      runOp st (subscribe st user user) = st) ∧
    (∀ st user author, (user, author) ∉ st.subscriptions → user ≠ author →
      subscribe st user author = Except.ok
        { st with subscriptions := st.subscriptions ++ [(user, author)] }) := by
  refine ⟨?_, ?_, ?_⟩
  · intro st user author hmem
    have hc : st.subscriptions.contains (user, author) = true := by
      simpa using hmem
    unfold subscribe SubscriptionSerializer.validate
    rw [if_pos hc]
    rfl
  · intro st user hmem
    have hc : ¬st.subscriptions.contains (user, user) = true :=
      fun hcon => hmem (by simpa using hcon)
    have hsub : subscribe st user user = Except.error Err.selfReference := by
      unfold subscribe SubscriptionSerializer.validate
      rw [if_neg hc, if_pos rfl]
      rfl
    refine ⟨hsub, ?_⟩
    rw [hsub]
    rfl
  · intro st user author hmem hne
    have hc : ¬st.subscriptions.contains (user, author) = true :=
      fun hcon => hmem (by simpa using hcon)
    unfold subscribe SubscriptionSerializer.validate
    rw [if_neg hc, if_neg hne]
    rfl

/-- C5, witness: on a store holding only the row (1, 2), user 0
subscribing to author 0 hits the self-reference error and the store
is unchanged. -/
theorem subscription_checks_order_witness :
    subscribe oneSubStore 0 0 = Except.error Err.selfReference ∧
      runOp oneSubStore (subscribe oneSubStore 0 0) = oneSubStore :=
  subscription_checks_order.2.1 oneSubStore 0 (by decide)

/-- A successful relation add certifies the pair was absent and the
row was appended. -/
theorem addRelation_ok_elim (rel : List (Nat × Nat)) (recipes : List Recipe)
    (user recipeId : Nat) (out : List (Nat × Nat))
    (h : BaseAddRecipeSerializer.addRelation rel recipes user recipeId =
      Except.ok out) :
    rel.contains (user, recipeId) = false ∧
      out = rel ++ [(user, recipeId)] := by
  unfold BaseAddRecipeSerializer.addRelation at h
  by_cases hc : rel.contains (user, recipeId) = true
  · rw [if_pos hc] at h
    exact Except.noConfusion h
  · rw [if_neg hc] at h
    refine ⟨by simpa using hc, ?_⟩
    by_cases he : (recipes.any fun r => r.id == recipeId) = true
    · rw [if_pos he] at h
      injection h with h
      exact h.symm
    · rw [if_neg he] at h
      exact Except.noConfusion h

/-- A second add of a pair already in a relation table raises the
already-added conflict. -/
theorem addRelation_second_err (rel : List (Nat × Nat))
    (recipes : List Recipe) (user recipeId : Nat)
    (h : rel.contains (user, recipeId) = true) :
    BaseAddRecipeSerializer.addRelation rel recipes user recipeId =
      Except.error Err.alreadyAdded := by
  unfold BaseAddRecipeSerializer.addRelation
  rw [if_pos h]

/-- C8: after a successful favorite (or cart) add, repeating the same
(user, recipe) add fails with the already-added conflict, the store is
left as it was, and the relation table holds exactly one row for the
pair. -/
theorem favorite_cart_second_add_conflict :
    (∀ st user recipeId st',
      addFavorite st user recipeId = Except.ok st' →
      addFavorite st' user recipeId = Except.error Err.alreadyAdded ∧
      runOp st' (addFavorite st' user recipeId) = st' ∧
      st'.favorites.count (user, recipeId) = 1) ∧
    ∀ st user recipeId st',
      addToBuyList st user recipeId = Except.ok st' →
      addToBuyList st' user recipeId = Except.error Err.alreadyAdded ∧
      runOp st' (addToBuyList st' user recipeId) = st' ∧
      st'.buyList.count (user, recipeId) = 1 := by
  constructor
  · intro st user recipeId st' h
    unfold addFavorite at h
    cases hr : BaseAddRecipeSerializer.addRelation st.favorites st.recipes
        user recipeId with
    | error e => rw [hr] at h; exact Except.noConfusion h
    | ok rel =>
      rw [hr] at h
      injection h with h
      obtain ⟨hc, hrel⟩ := addRelation_ok_elim _ _ _ _ _ hr
      subst hrel
      have hsecond : addFavorite st' user recipeId =
          Except.error Err.alreadyAdded := by
        unfold addFavorite
        rw [addRelation_second_err _ _ _ _ (by rw [← h]; simp)]
        rfl
      refine ⟨hsecond, by rw [hsecond]; rfl, ?_⟩
      rw [← h]
      simp only [List.count_append]
      rw [List.count_eq_zero.mpr (by simpa using hc)]
      simp
  · intro st user recipeId st' h
    unfold addToBuyList at h
    cases hr : BaseAddRecipeSerializer.addRelation st.buyList st.recipes
        user recipeId with
    | error e => rw [hr] at h; exact Except.noConfusion h
    | ok rel =>
      rw [hr] at h
      injection h with h
      obtain ⟨hc, hrel⟩ := addRelation_ok_elim _ _ _ _ _ hr
      subst hrel
      have hsecond : addToBuyList st' user recipeId =
          Except.error Err.alreadyAdded := by
        unfold addToBuyList
        rw [addRelation_second_err _ _ _ _ (by rw [← h]; simp)]
        rfl
      refine ⟨hsecond, by rw [hsecond]; rfl, ?_⟩
      rw [← h]
      simp only [List.count_append]
      rw [List.count_eq_zero.mpr (by simpa using hc)]
      simp

/-- C8, witness: favoriting recipe 1 once from a clean store, then a
second time, hits the conflict and leaves exactly one row. -/
theorem favorite_cart_second_add_conflict_witness :
    addFavorite { oneRecipeStore with favorites := [(0, 1)] } 0 1 =
        Except.error Err.alreadyAdded ∧
      runOp { oneRecipeStore with favorites := [(0, 1)] }
        (addFavorite { oneRecipeStore with favorites := [(0, 1)] } 0 1) =
        { oneRecipeStore with favorites := [(0, 1)] } ∧
      ({ oneRecipeStore with favorites := [(0, 1)] } : Store).favorites.count
        (0, 1) = 1 :=
  favorite_cart_second_add_conflict.1 oneRecipeStore 0 1
    { oneRecipeStore with favorites := [(0, 1)] } (by decide)

/-- runFieldValidators either passes or raises the out-of-range
error. -/
theorem runFieldValidators_cases (attrs : Attrs) :
    runFieldValidators attrs = Except.ok () ∨
      runFieldValidators attrs = Except.error Err.fieldOutOfRange := by
  unfold runFieldValidators
  split_ifs
  · exact Or.inl rfl
  · exact Or.inr rfl

/-- The only error a bulk insert raises is the integrity error. -/
theorem bulk_create_lines_error_shape (newRows : List IngredientRecipe) :
    ∀ rows e, bulk_create_lines rows newRows = Except.error e →
      e = Err.integrityError := by
  induction newRows with
  | nil =>
    intro rows e h
    exact Except.noConfusion h
  | cons row rest ih =>
    intro rows e h
    rw [bulk_create_lines] at h
    by_cases hc : (rows.any fun r => r.recipe == row.recipe &&
        r.ingredient == row.ingredient) = true
    · rw [if_pos hc] at h
      injection h with h
      exact h.symm
    · rw [if_neg hc] at h
      exact ih _ _ h

/-- C2: a failed create or update leaves the store exactly as it was
(and for create therefore persists no Recipe, ingredient-line or tag
row), and a submission repeating a tag id or an ingredient id never
succeeds, for create and update alike. -/
theorem recipe_write_all_or_nothing :
    (∀ st author attrs e, createRecipe st author attrs = Except.error e →
      runOp st (createRecipe st author attrs) = st) ∧
    (∀ st author rid attrs e,
      updateRecipe st author rid attrs = Except.error e →
      runOp st (updateRecipe st author rid attrs) = st) ∧
    (∀ st author attrs st', createRecipe st author attrs = Except.ok st' →
      (attrs.tag.getD []).Nodup ∧
      ((attrs.recipe_ingredients.getD []).map (·.ingredient)).Nodup) ∧
    ∀ st author rid attrs st',
      updateRecipe st author rid attrs = Except.ok st' →
      (attrs.tag.getD []).Nodup ∧
      ((attrs.recipe_ingredients.getD []).map (·.ingredient)).Nodup := by
  refine ⟨?_, ?_, ?_, ?_⟩
  · intro st author attrs e h
    rw [runOp.eq_def, h]
  · intro st author rid attrs e h
    rw [runOp.eq_def, h]
  · intro st author attrs st' h
    obtain ⟨-, hv, -⟩ := createRecipe_ok_elim st author attrs st' h
    obtain ⟨name, ingredients, -, hi, -, -, hnt, hni, -⟩ :=
      validate_ok_shape st author true attrs hv
    rw [hi]
    exact ⟨hnt, hni⟩
  · intro st author rid attrs st' h
    obtain ⟨-, hv, -⟩ := updateRecipe_ok_elim st author rid attrs st' h
    obtain ⟨name, ingredients, -, hi, -, -, hnt, hni, -⟩ :=
      validate_ok_shape st author false attrs hv
    rw [hi]
    exact ⟨hnt, hni⟩

/-- C2, witness: the create repeating ingredient id 4 fails and the
store is unchanged. -/
theorem recipe_write_all_or_nothing_witness :
    runOp noCartStore (createRecipe noCartStore 7 dupIngredientAttrs) =
      noCartStore :=
  recipe_write_all_or_nothing.1 noCartStore 7 dupIngredientAttrs
    (Err.duplicateInList "Ингредиенты" 4) (by decide)

/-- C7: a submission whose tag set or ingredient-line list is empty or
absent is rejected by create and by update before any write, and both
operations preserve the invariant that every stored recipe has at
least one tag pair and at least one ingredient line. -/
theorem recipe_nonempty_tags_lines_invariant :
    (∀ st author attrs, attrs.tag.getD [] = [] ∨
        attrs.recipe_ingredients.getD [] = [] →
      ∃ e, createRecipe st author attrs = Except.error e) ∧
    (∀ st author rid attrs, attrs.tag.getD [] = [] ∨
        attrs.recipe_ingredients.getD [] = [] →
      ∃ e, updateRecipe st author rid attrs = Except.error e) ∧
    (∀ st author attrs st', createRecipe st author attrs = Except.ok st' →
      recipeInv st → recipeInv st') ∧
    ∀ st author rid attrs st',
      updateRecipe st author rid attrs = Except.ok st' →
      recipeInv st → recipeInv st' := by
  refine ⟨?_, ?_, ?_, ?_⟩
  · intro st author attrs hempty
    cases hres : createRecipe st author attrs with
    | error e => exact ⟨e, rfl⟩
    | ok st' =>
      exfalso
      obtain ⟨-, hv, -⟩ := createRecipe_ok_elim st author attrs st' hres
      obtain ⟨name, ingredients, -, hi, hnt, hne, -⟩ :=
        validate_ok_shape st author true attrs hv
      rcases hempty with hempty | hempty
      · exact hnt hempty
      · rw [hi] at hempty
        exact hne hempty
  · intro st author rid attrs hempty
    cases hres : updateRecipe st author rid attrs with
    | error e => exact ⟨e, rfl⟩
    | ok st' =>
      exfalso
      obtain ⟨-, hv, -⟩ := updateRecipe_ok_elim st author rid attrs st' hres
      obtain ⟨name, ingredients, -, hi, hnt, hne, -⟩ :=
        validate_ok_shape st author false attrs hv
      rcases hempty with hempty | hempty
      · exact hnt hempty
      · rw [hi] at hempty
        exact hne hempty
  · intro st author attrs st' h hinv
    obtain ⟨-, hv, hst⟩ := createRecipe_ok_elim st author attrs st' h
    obtain ⟨name, ingredients, -, hi, hnt, hne, -⟩ :=
      validate_ok_shape st author true attrs hv
    subst hst
    intro r hr
    rcases List.mem_append.mp hr with hr | hr
    · obtain ⟨⟨p, hp, hpid⟩, ⟨l, hl, hlid⟩⟩ := hinv r hr
      exact ⟨⟨p, List.mem_append.mpr (Or.inl hp), hpid⟩,
        ⟨l, List.mem_append.mpr (Or.inl hl), hlid⟩⟩
    · have hrid : r.id = freshId st := by
        rcases List.mem_singleton.mp hr with rfl
        rfl
      obtain ⟨t, ht⟩ := List.exists_mem_of_ne_nil _ hnt
      have hline : ingredients ≠ [] := hne
      obtain ⟨li, hli⟩ := List.exists_mem_of_ne_nil _ hline
      refine ⟨⟨(freshId st, t), ?_, by rw [hrid]⟩,
        ⟨⟨li.ingredient, freshId st, li.amount⟩, ?_, by rw [hrid]⟩⟩
      · exact List.mem_append.mpr (Or.inr
          (List.mem_map.mpr ⟨t, ht, rfl⟩))
      · refine List.mem_append.mpr (Or.inr ?_)
        rw [hi]
        exact List.mem_map.mpr ⟨li, hli, rfl⟩
  · intro st author rid attrs st' h hinv
    obtain ⟨-, hv, hst⟩ := updateRecipe_ok_elim st author rid attrs st' h
    obtain ⟨name, ingredients, -, hi, hnt, hne, -⟩ :=
      validate_ok_shape st author false attrs hv
    subst hst
    intro r hr
    obtain ⟨r₀, hr₀, hfr⟩ :=
      List.mem_map.mp (hr : r ∈ (RecipeSerializer.update st rid attrs).recipes)
    by_cases hid : r₀.id = rid
    · rw [if_pos hid] at hfr
      have hrid : r.id = rid := by rw [← hfr, applyScalars, hid]
      obtain ⟨t, ht⟩ := List.exists_mem_of_ne_nil _ hnt
      obtain ⟨li, hli⟩ := List.exists_mem_of_ne_nil _ hne
      refine ⟨⟨(rid, t), ?_, by rw [hrid]⟩,
        ⟨⟨li.ingredient, rid, li.amount⟩, ?_, by rw [hrid]⟩⟩
      · exact List.mem_append.mpr (Or.inr
          (List.mem_map.mpr ⟨t, ht, rfl⟩))
      · refine List.mem_append.mpr (Or.inr ?_)
        rw [hi]
        exact List.mem_map.mpr ⟨li, hli, rfl⟩
    · rw [if_neg hid] at hfr
      subst hfr
      obtain ⟨⟨p, hp, hpid⟩, ⟨l, hl, hlid⟩⟩ := hinv r₀ hr₀
      refine ⟨⟨p, List.mem_append.mpr (Or.inl ?_), hpid⟩,
        ⟨l, List.mem_append.mpr (Or.inl ?_), hlid⟩⟩
      · refine List.mem_filter.mpr ⟨hp, ?_⟩
        simp [hpid, hid]
      · refine List.mem_filter.mpr ⟨hl, ?_⟩
        simp [hlid, hid]

/-- C7, witness: creating the boundary submission in an empty store
yields a store satisfying the invariant. -/
theorem recipe_nonempty_tags_lines_invariant_witness :
    recipeInv createdStore :=
  recipe_nonempty_tags_lines_invariant.2.2.1 noCartStore 7
    (boundaryAttrs 5 5) createdStore (by decide)
    (by simp [recipeInv, noCartStore])


/-- C4, counterexample: author 7's store already holds recipe "x"
with tag 3 (the conflict condition is true), yet the colliding create
with an empty ingredient list fails with the empty-ingredients error,
not the conflict error — so "fails with ConflictError exactly when
the same author already has a stored recipe with the same name
sharing a tag" is false as stated. -/
theorem conflict_check_counterexample :
    conflictExists conflictStore 7 "x" [3] = true ∧
      createRecipe conflictStore 7 conflictEmptyIngredientsAttrs =
        Except.error Err.emptyIngredients ∧
      Err.emptyIngredients ≠ Err.conflict := by
  decide

/-- C4 (amended: restricted to submissions that pass field validation
and carry a non-empty ingredient list, which the code checks before
the conflict): createRecipe fails with the name/tag conflict error
exactly when field validation passes, the required keys are present,
the ingredient list is non-empty and the same author already has a
stored recipe with the same name sharing at least one submitted tag;
updateRecipe never raises this conflict. -/
theorem conflict_check_create_only :
    (∀ st author attrs,
      createRecipe st author attrs = Except.error Err.conflict ↔
        runFieldValidators attrs = Except.ok () ∧
        ∃ name ingredients, attrs.name = some name ∧
          attrs.recipe_ingredients = some ingredients ∧ ingredients ≠ [] ∧
          conflictExists st author name (attrs.tag.getD []) = true) ∧
    ∀ st author rid attrs,
      updateRecipe st author rid attrs ≠ Except.error Err.conflict := by
  constructor
  · intro st author attrs
    constructor
    · intro h
      rcases runFieldValidators_cases attrs with hf | hf
      · unfold createRecipe at h
        rw [hf] at h
        cases hv : RecipeSerializer.validate st author true attrs with
        | error e =>
          rw [hv] at h
          injection h with h
          subst h
          obtain ⟨name, ingredients, hn, hi, -, hne, hc⟩ :=
            (validate_eq_conflict st author true attrs).mp hv
          refine ⟨hf, name, ingredients, hn, hi, hne, ?_⟩
          simpa using hc
        | ok v =>
          cases v
          rw [hv] at h
          cases hb : bulk_create_lines st.ingredientRecipes
              ((attrs.recipe_ingredients.getD []).map
                fun l => ⟨l.ingredient, freshId st, l.amount⟩) with
          | error e =>
            rw [hb] at h
            injection h with h
            subst h
            exact absurd (bulk_create_lines_error_shape _ _ _ hb)
              (by intro hcontra; exact Err.noConfusion hcontra)
          | ok rows =>
            rw [hb] at h
            exact Except.noConfusion h
      · unfold createRecipe at h
        rw [hf] at h
        injection h with h
        exact absurd h (by intro hcontra; exact Err.noConfusion hcontra)
    · rintro ⟨hf, name, ingredients, hn, hi, hne, hc⟩
      have hnt : attrs.tag.getD [] ≠ [] := by
        intro hnil
        rw [hnil] at hc
        simp [conflictExists] at hc
      have hv : RecipeSerializer.validate st author true attrs =
          Except.error Err.conflict :=
        (validate_eq_conflict st author true attrs).mpr
          ⟨name, ingredients, hn, hi, hnt, hne, by simp [hc]⟩
      unfold createRecipe
      rw [hf, hv]
      rfl
  · intro st author rid attrs h
    rcases runFieldValidators_cases attrs with hf | hf
    · unfold updateRecipe at h
      rw [hf] at h
      cases hv : RecipeSerializer.validate st author false attrs with
      | error e =>
        rw [hv] at h
        injection h with h
        subst h
        obtain ⟨name, ingredients, -, -, -, -, hc⟩ :=
          (validate_eq_conflict st author false attrs).mp hv
        simp at hc
      | ok v =>
        cases v
        rw [hv] at h
        exact Except.noConfusion h
    · unfold updateRecipe at h
      rw [hf] at h
      injection h with h
      exact Err.noConfusion h

/-- C4, witness: the colliding create with one valid ingredient line
does fail with the conflict error. -/
theorem conflict_check_create_only_witness :
    createRecipe conflictStore 7 conflictAttrs =
      Except.error Err.conflict :=
  (conflict_check_create_only.1 conflictStore 7 conflictAttrs).mpr
    ⟨by decide, "x", [⟨1, 5⟩], by decide, by decide, by decide, by decide⟩

/-- C6: the numeric bounds are inclusive — a submitted cooking_time
of 0 or 1001, or any submitted ingredient amount of 0 or 3001, makes
create fail field validation, while the boundary submissions with
cooking_time 1 and 1000 and amount 1 and 3000 succeed. -/
theorem numeric_bounds_inclusive :
    (∀ st author attrs, attrs.cooking_time = some 0 ∨
        attrs.cooking_time = some 1001 →
      createRecipe st author attrs = Except.error Err.fieldOutOfRange) ∧
    (∀ st author attrs ingredients line,
      attrs.recipe_ingredients = some ingredients → line ∈ ingredients →
      line.amount = 0 ∨ line.amount = 3001 →
      createRecipe st author attrs = Except.error Err.fieldOutOfRange) ∧
    (∃ st₁, createRecipe noCartStore 7 (boundaryAttrs 1 5) =
      Except.ok st₁) ∧
    (∃ st₂, createRecipe noCartStore 7 (boundaryAttrs 1000 5) =
      Except.ok st₂) ∧
    (∃ st₃, createRecipe noCartStore 7 (boundaryAttrs 5 1) =
      Except.ok st₃) ∧
    ∃ st₄, createRecipe noCartStore 7 (boundaryAttrs 5 3000) =
      Except.ok st₄ := by
  refine ⟨?_, ?_, ⟨_, rfl⟩, ⟨_, rfl⟩, ⟨_, rfl⟩, ⟨_, rfl⟩⟩
  · intro st author attrs hct
    have hf : runFieldValidators attrs = Except.error Err.fieldOutOfRange := by
      unfold runFieldValidators
      rcases hct with hct | hct <;>
        rw [hct] <;>
        simp [cookingTimeValid, MIN_COOKING_TIME, MAX_COOKING_TIME]
    unfold createRecipe
    rw [hf]
    rfl
  · intro st author attrs ingredients line hi hline ham
    have hall : (ingredients.all fun l => amountValid l.amount) = false := by
      rw [← Bool.not_eq_true, List.all_eq_true]
      intro hAll
      have hv := hAll line hline
      rcases ham with ham | ham <;>
        rw [ham] at hv <;>
        simp [amountValid, MIN_AMOUNT_INGREDIENT, MAX_AMOUNT_INGREDIENT]
          at hv
    have hf : runFieldValidators attrs = Except.error Err.fieldOutOfRange := by
      unfold runFieldValidators
      rw [hi]
      simp [hall]
    unfold createRecipe
    rw [hf]
    rfl

/-- C6, witness: the boundary submission with cooking_time 0 is
rejected by field validation. -/
theorem numeric_bounds_inclusive_witness :
    createRecipe noCartStore 7 (boundaryAttrs 0 5) =
      Except.error Err.fieldOutOfRange :=
  numeric_bounds_inclusive.1 noCartStore 7 (boundaryAttrs 0 5)
    (Or.inl rfl)

end Foodgram
